import Mathlib

/-!
Verification of the MQTTPlot time-window navigation and axis-tick planning
logic.  The definitions below are shallow embeddings of the JavaScript code
under `static/` (plot_single.js, admin_topic_plot.js, plot_core.js):
timestamps are modelled as integer milliseconds (JS `Date` values), numeric
values and tick sizes as rationals, fallible lookups as `Option`.
-/

namespace MQTTPlot

/-- JS `Math.round`: rounds half toward positive infinity. -/
def jsRound (q : ℚ) : ℤ := ⌊q + 1/2⌋

/-- JS `new Date(value)` applies ToIntegerOrInfinity to a fractional
millisecond value: truncation toward zero. -/
def jsTrunc (q : ℚ) : ℤ := if q < 0 then -⌊-q⌋ else ⌊q⌋

lemma jsTrunc_intCast (n : ℤ) : jsTrunc (n : ℚ) = n := by
  unfold jsTrunc
  by_cases h : (n : ℚ) < 0
  · rw [if_pos h, show (-(n : ℚ)) = ((-n : ℤ) : ℚ) by push_cast; ring,
      Int.floor_intCast, neg_neg]
  · rw [if_neg h, Int.floor_intCast]

/-- Data bounds for a topic: earliest and latest sample timestamps,
as returned by the bounds API (`min_ts`, `max_ts`). -/
structure Bounds where
  min : ℤ
  max : ℤ
  deriving DecidableEq, Repr

/-- `clampWindow(start, end, min, max)` from plot_single.js (lines 90 to 114;
an identical copy lives in admin_topic_plot.js lines 60 to 83).
Normalizes the window order, collapses to `[min, max]` when the data extent
is not wider than the window, otherwise shifts a too-early window right and
a too-late window left, with two final safety guards. -/
def clampWindow (start end_ mn mx : ℤ) : ℤ × ℤ :=
  let s0 := if start > end_ then end_ else start
  let e0 := if start > end_ then start else end_
  let windowMs := e0 - s0
  if mx - mn ≤ windowMs then (mn, mx)
  else
    let s1 := if s0 < mn then mn else s0
    let e1 := if s0 < mn then mn + windowMs else e0
    let s2 := if e1 > mx then mx - windowMs else s1
    let e2 := if e1 > mx then mx else e1
    let s3 := if s2 < mn then mn else s2
    let e3 := if e2 > mx then mx else e2
    (s3, e3)

lemma clampWindow_id {s e mn mx : ℤ} (h1 : mn ≤ s) (h2 : s ≤ e) (h3 : e ≤ mx) :
    clampWindow s e mn mx = (s, e) := by
  simp only [clampWindow]
  split_ifs <;> simp_all <;> omega

/-- C1: for every `start <= end` and `min <= max`, the clamped window
`[s, e]` satisfies `min <= s <= e <= max` and its length `e - s` equals
`min(end - start, max - min)`: narrow data collapses the window to exactly
`[min, max]`, otherwise the window keeps its length and is shifted into
the data bounds. -/
theorem clampWindow_invariant (start end_ mn mx : ℤ)
    (hse : start ≤ end_) (hmm : mn ≤ mx) :
    mn ≤ (clampWindow start end_ mn mx).1 ∧
    (clampWindow start end_ mn mx).1 ≤ (clampWindow start end_ mn mx).2 ∧
    (clampWindow start end_ mn mx).2 ≤ mx ∧
    (clampWindow start end_ mn mx).2 - (clampWindow start end_ mn mx).1 =
      min (end_ - start) (mx - mn) := by
  simp only [clampWindow]
  split_ifs <;> simp_all <;> omega

/-- Concrete instance of `clampWindow_invariant`: a window of length 4
ending past the data is shifted left onto `[max - 4, max]`. -/
theorem clampWindow_invariant_witness :
    (0 : ℤ) ≤ 10 ∧ (0 : ℤ) ≤ 7 ∧
    (0 ≤ (clampWindow 6 10 0 7).1 ∧
     (clampWindow 6 10 0 7).1 ≤ (clampWindow 6 10 0 7).2 ∧
     (clampWindow 6 10 0 7).2 ≤ 7 ∧
     (clampWindow 6 10 0 7).2 - (clampWindow 6 10 0 7).1 =
       min (10 - 6) (7 - 0)) := by
  refine ⟨by decide, by decide, ?_⟩
  exact clampWindow_invariant 6 10 0 7 (by decide) (by decide)

/-- The discrete window-span presets in milliseconds (plot_single.js lines
8 to 19): 2h, 4h (default), 8h, 12h, 1d, 3d, 5d, 1w, 2w, 4w. -/
def WINDOW_OPTIONS_MS : List ℤ :=
  [2 * 60 * 60 * 1000,
   4 * 60 * 60 * 1000,
   8 * 60 * 60 * 1000,
   12 * 60 * 60 * 1000,
   24 * 60 * 60 * 1000,
   3 * 24 * 60 * 60 * 1000,
   5 * 24 * 60 * 60 * 1000,
   7 * 24 * 60 * 60 * 1000,
   14 * 24 * 60 * 60 * 1000,
   28 * 24 * 60 * 60 * 1000]

/-- `nearestWindowIndex(windowMs)` from plot_single.js (lines 69 to 80):
linear scan keeping the first index whose absolute difference to
`windowMs` is strictly smaller than the best so far (initial best
difference is Infinity, modelled by the `none` accumulator). -/
def nearestWindowIndex (windowMs : ℤ) : ℕ :=
  ((List.range WINDOW_OPTIONS_MS.length).foldl
    (fun best i =>
      let diff := (WINDOW_OPTIONS_MS.getD i 0 - windowMs).natAbs
      match best.2 with
      | none => (i, some diff)
      | some bd => if diff < bd then (i, some diff) else best)
    ((0 : ℕ), (none : Option ℕ))).1

/-- The window state of `SingleTopicPlot` (plot_single.js): the current
start and end timestamps, `null` before a plot exists. -/
structure SingleState where
  currentStart : Option ℤ
  currentEnd : Option ℤ
  deriving DecidableEq, Repr

/-- The midpoint of the current window, when it exists. -/
def stateCenter (s : SingleState) : Option ℚ :=
  match s.currentStart, s.currentEnd with
  | some a, some b => some (((a : ℚ) + (b : ℚ)) / 2)
  | _, _ => none

/-- `applyWindowSize(newWindowMs)` from plot_single.js (lines 357 to 383):
with bounds absent it is a no-op that signals no data (`true` flag);
otherwise it recomputes the window around the current center and clamps.
The center can be a half-integer; JS `new Date` truncates it. -/
def applyWindowSize (b : Option Bounds) (newWindowMs : ℤ) (s : SingleState) :
    SingleState × Bool :=
  match b with
  | none => (s, true)
  | some bb =>
    let start := s.currentStart.getD bb.min
    let end_ := s.currentEnd.getD bb.max
    let centerMs : ℚ := ((start : ℚ) + (end_ : ℚ)) / 2
    let start1 := jsTrunc (centerMs - (newWindowMs : ℚ) / 2)
    let end1 := jsTrunc (centerMs + (newWindowMs : ℚ) / 2)
    let c := clampWindow start1 end1 bb.min bb.max
    ({ currentStart := some c.1, currentEnd := some c.2 }, false)

/-- `zoomIn()` from plot_single.js (lines 385 to 404): a no-op signalling
no data when bounds are absent; otherwise moves one preset down
(`Math.max(0, idx - 1)`, which is natural subtraction) and applies it. -/
def zoomIn (b : Option Bounds) (s : SingleState) : SingleState × Bool :=
  match b with
  | none => (s, true)
  | some bb =>
    let start := s.currentStart.getD bb.min
    let end_ := s.currentEnd.getD bb.max
    let windowMs := max 1000 (end_ - start)
    let idx := nearestWindowIndex windowMs
    let newIdx := idx - 1
    applyWindowSize b (WINDOW_OPTIONS_MS.getD newIdx 0) s

/-- `zoomOut()` from plot_single.js (lines 406 to 425): a no-op signalling
no data when bounds are absent; otherwise moves one preset up, capped at
the last preset, and applies it. -/
def zoomOut (b : Option Bounds) (s : SingleState) : SingleState × Bool :=
  match b with
  | none => (s, true)
  | some bb =>
    let start := s.currentStart.getD bb.min
    let end_ := s.currentEnd.getD bb.max
    let windowMs := max 1000 (end_ - start)
    let idx := nearestWindowIndex windowMs
    let newIdx := min (WINDOW_OPTIONS_MS.length - 1) (idx + 1)
    applyWindowSize b (WINDOW_OPTIONS_MS.getD newIdx 0) s

/-- `slideWindow(fraction)` from plot_single.js (lines 427 to 454): a no-op
signalling no data when bounds are absent; otherwise shifts both edges by
`fraction` of the current span and clamps. -/
def slideWindow (b : Option Bounds) (fraction : ℚ) (s : SingleState) :
    SingleState × Bool :=
  match b with
  | none => (s, true)
  | some bb =>
    let start := s.currentStart.getD bb.min
    let end_ := s.currentEnd.getD bb.max
    let windowMs := max 1000 (end_ - start)
    let shiftMs : ℚ := (windowMs : ℚ) * fraction
    let start1 := jsTrunc ((start : ℚ) + shiftMs)
    let end1 := jsTrunc ((end_ : ℚ) + shiftMs)
    let c := clampWindow start1 end1 bb.min bb.max
    ({ currentStart := some c.1, currentEnd := some c.2 }, false)

/-- C8: with `dataBounds` absent, every bound-dependent navigation
operation (zoomIn, zoomOut, slide, and the applyWindowSize step they
share) returns the current window state unchanged and signals no data;
being total Lean functions, they cannot throw. -/
theorem noData_nav_noop (s : SingleState) (fraction : ℚ) (newWindowMs : ℤ) :
    zoomIn none s = (s, true) ∧
    zoomOut none s = (s, true) ∧
    slideWindow none fraction s = (s, true) ∧
    applyWindowSize none newWindowMs s = (s, true) :=
  ⟨rfl, rfl, rfl, rfl⟩

lemma window_ge_1000 (idx : ℕ) (h : idx ≤ 9) :
    1000 ≤ WINDOW_OPTIONS_MS.getD idx 0 := by
  interval_cases idx <;> decide

lemma window_even (idx : ℕ) (h : idx ≤ 9) :
    2 ∣ WINDOW_OPTIONS_MS.getD idx 0 := by
  interval_cases idx <;> decide

lemma window_step_le (idx : ℕ) (h1 : 1 ≤ idx) (h2 : idx ≤ 9) :
    WINDOW_OPTIONS_MS.getD (idx - 1) 0 ≤ WINDOW_OPTIONS_MS.getD idx 0 := by
  interval_cases idx <;> decide

lemma nearestWindowIndex_self (idx : ℕ) (h : idx ≤ 9) :
    nearestWindowIndex (WINDOW_OPTIONS_MS.getD idx 0) = idx := by
  interval_cases idx <;> decide

/-- `applyWindowSize` on a window whose endpoint sum is even and whose new
span `2 * h` stays inside the bounds: the JS Date truncation is exact and
the clamp is the identity, so the result is the window of half-width `h`
around the center `c`. -/
lemma applyWindowSize_even (bb : Bounds) (s : SingleState) (st en c h : ℤ)
    (hst : s.currentStart = some st) (hen : s.currentEnd = some en)
    (hsum : st + en = 2 * c)
    (hmn : bb.min ≤ c - h) (hh : 0 ≤ h) (hmx : c + h ≤ bb.max) :
    applyWindowSize (some bb) (2 * h) s =
      ({ currentStart := some (c - h), currentEnd := some (c + h) }, false) := by
  have hq : (st : ℚ) + (en : ℚ) = 2 * (c : ℚ) := by exact_mod_cast hsum
  have h1 : ((st : ℚ) + (en : ℚ)) / 2 - ((2 * h : ℤ) : ℚ) / 2 = ((c - h : ℤ) : ℚ) := by
    rw [hq]; push_cast; ring
  have h2 : ((st : ℚ) + (en : ℚ)) / 2 + ((2 * h : ℤ) : ℚ) / 2 = ((c + h : ℤ) : ℚ) := by
    rw [hq]; push_cast; ring
  simp only [applyWindowSize, hst, hen, Option.getD_some]
  rw [h1, h2, jsTrunc_intCast, jsTrunc_intCast,
    clampWindow_id hmn (by omega) hmx]

/-- C7: `zoomIn` followed by `zoomOut` from a window sitting exactly on a
non-boundary preset, with both zoomed windows inside the data bounds (so
clamping is the identity), returns a window with the same center: each
step recomputes the window symmetrically around the current center. -/
theorem zoom_center_preserved (bb : Bounds) (s : SingleState) (st en : ℤ) (idx : ℕ)
    (hst : s.currentStart = some st) (hen : s.currentEnd = some en)
    (hidx1 : 1 ≤ idx) (hidx2 : idx ≤ 8)
    (hspan : en - st = WINDOW_OPTIONS_MS.getD idx 0)
    (hmin : bb.min ≤ st) (hmax : en ≤ bb.max) :
    stateCenter (zoomOut (some bb) (zoomIn (some bb) s).1).1 = stateCenter s := by
  obtain ⟨a, ha⟩ := window_even idx (by omega)
  obtain ⟨a', ha'⟩ := window_even (idx - 1) (by omega)
  have h1000 : 1000 ≤ WINDOW_OPTIONS_MS.getD idx 0 := window_ge_1000 idx (by omega)
  have h1000' : 1000 ≤ WINDOW_OPTIONS_MS.getD (idx - 1) 0 :=
    window_ge_1000 (idx - 1) (by omega)
  have hstep : WINDOW_OPTIONS_MS.getD (idx - 1) 0 ≤ WINDOW_OPTIONS_MS.getD idx 0 :=
    window_step_le idx hidx1 (by omega)
  have hnear : nearestWindowIndex (WINDOW_OPTIONS_MS.getD idx 0) = idx :=
    nearestWindowIndex_self idx (by omega)
  have hnear' : nearestWindowIndex (WINDOW_OPTIONS_MS.getD (idx - 1) 0) = idx - 1 :=
    nearestWindowIndex_self (idx - 1) (by omega)
  have hen2 : en = st + 2 * a := by omega
  have hz1 : zoomIn (some bb) s =
      ({ currentStart := some (st + a - a'), currentEnd := some (st + a + a') }, false) := by
    have hw : max 1000 (en - st) = WINDOW_OPTIONS_MS.getD idx 0 := by
      rw [hspan]; exact max_eq_right h1000
    simp only [zoomIn, hst, hen, Option.getD_some, hw, hnear]
    rw [ha']
    exact applyWindowSize_even bb s st en (st + a) a' hst hen
      (by omega) (by omega) (by omega) (by omega)
  have hz2 : zoomOut (some bb)
      ({ currentStart := some (st + a - a'), currentEnd := some (st + a + a') } : SingleState) =
      (({ currentStart := some st, currentEnd := some (st + 2 * a) } : SingleState), false) := by
    have hw2 : max 1000 (st + a + a' - (st + a - a')) = WINDOW_OPTIONS_MS.getD (idx - 1) 0 := by
      rw [show st + a + a' - (st + a - a') = 2 * a' from by ring, ← ha']
      exact max_eq_right h1000'
    simp only [zoomOut, Option.getD_some, hw2, hnear']
    have hidxeq : min (WINDOW_OPTIONS_MS.length - 1) (idx - 1 + 1) = idx := by
      have hlen : WINDOW_OPTIONS_MS.length = 10 := rfl
      omega
    rw [hidxeq, ha]
    have := applyWindowSize_even bb
      ({ currentStart := some (st + a - a'), currentEnd := some (st + a + a') } : SingleState)
      (st + a - a') (st + a + a') (st + a) a rfl rfl
      (by ring) (by omega) (by omega) (by omega)
    rw [this, show st + a - a = st from by ring, show st + a + a = st + 2 * a from by ring]
  simp only [hz1]
  simp only [hz2]
  simp only [stateCenter, hst, hen]
  rw [hen2]

/-- Concrete instance of `zoom_center_preserved`: a 4-hour window at the
start of a wide data range keeps its center across zoom in then out. -/
theorem zoom_center_preserved_witness :
    (14400000 : ℤ) - 0 = WINDOW_OPTIONS_MS.getD 1 0 ∧
    (⟨0, 100000000⟩ : Bounds).min ≤ 0 ∧
    stateCenter (zoomOut (some ⟨0, 100000000⟩)
        (zoomIn (some ⟨0, 100000000⟩) ⟨some 0, some 14400000⟩).1).1 =
      stateCenter ⟨some 0, some 14400000⟩ :=
  ⟨by decide, by decide,
   zoom_center_preserved ⟨0, 100000000⟩ ⟨some 0, some 14400000⟩ 0 14400000 1
     rfl rfl (by decide) (by decide) (by decide) (by decide) (by decide)⟩

/-- The window state of the admin single-topic plot page
(admin_topic_plot.js lines 178 to 184): an immutable selected span, the
displayed window, the last known tail, and the follow-tail flag.
`start`, `end`, `tail` are `Date | null` in JS. -/
structure AdminState where
  spanMs : ℤ
  start : Option ℤ
  end_ : Option ℤ
  tail : Option ℤ
  followTail : Bool
  deriving DecidableEq, Repr

/-- The `btnFwd` click handler of admin_topic_plot.js (lines 201 to 209):
shift both edges forward by one full span; if the new end reaches or
passes the last known tail, set `followTail`.  JS would throw on a null
`start`/`end` (the handlers only run after the initial render has set
them), modelled by returning `none`. -/
def btnFwd (s : AdminState) : Option AdminState :=
  match s.start, s.end_ with
  | some st, some en =>
    let start := st + s.spanMs
    let end_ := en + s.spanMs
    let followTail :=
      match s.tail with
      | some t => if t ≤ end_ then true else s.followTail
      | none => s.followTail
    some { s with start := some start, end_ := some end_, followTail := followTail }
  | _, _ => none

/-- The window-state portion of `renderPlot` in admin_topic_plot.js
(lines 112 to 137), given the fetched bounds `[bmin, bmax]`: record the
tail, backfill a missing window, pin the window to the tail when
`followTail` is set, then clamp against the bounds.  (The data fetch and
chart rendering that follow do not touch the window state.) -/
def renderPlotWindow (bmin bmax : ℤ) (s : AdminState) : AdminState :=
  let end0 := s.end_.getD bmax
  let start0 := s.start.getD (end0 - s.spanMs)
  let start1 := if s.followTail then bmax - s.spanMs else start0
  let end1 := if s.followTail then bmax else end0
  let c := clampWindow start1 end1 bmin bmax
  { s with start := some c.1, end_ := some c.2, tail := some bmax }

/-- One press of the Forward button as the user observes it: the `btnFwd`
handler followed by the `renderPlot` window update. -/
def slideForward (bmin bmax : ℤ) (s : AdminState) : Option AdminState :=
  (btnFwd s).map (renderPlotWindow bmin bmax)

lemma clampWindow_tail {bmin bmax span : ℤ} (h0 : 0 ≤ span)
    (hw : bmin + span ≤ bmax) :
    clampWindow (bmax - span) bmax bmin bmax = (bmax - span, bmax) := by
  simp only [clampWindow]
  split_ifs <;> simp_all <;> omega

/-- C4: pressing Forward when the proposed new end reaches or passes the
tail (`dataBounds.max`) snaps the window to `[max - span, max]` with
`followTail = true`; the resulting state is a fixed point of Forward, so
repeated presses once `end == dataBounds.max` leave the window unchanged
with `followTail` still true. -/
theorem slideForward_snap_idempotent (bmin bmax : ℤ) (s : AdminState) (st en : ℤ)
    (hst : s.start = some st) (hen : s.end_ = some en) (htail : s.tail = some bmax)
    (hspan0 : 0 ≤ s.spanMs) (hreach : bmax ≤ en + s.spanMs)
    (hwide : bmin + s.spanMs ≤ bmax) :
    ∃ s', slideForward bmin bmax s = some s' ∧
      s'.end_ = some bmax ∧ s'.start = some (bmax - s.spanMs) ∧
      s'.followTail = true ∧
      slideForward bmin bmax s' = some s' := by
  refine ⟨{ s with
            start := some (bmax - s.spanMs)
            end_ := some bmax
            tail := some bmax
            followTail := true }, ?_, rfl, rfl, rfl, ?_⟩
  · simp only [slideForward, btnFwd, hst, hen, htail, Option.map_some']
    rw [if_pos hreach]
    simp [renderPlotWindow, clampWindow_tail hspan0 hwide]
  · simp only [slideForward, btnFwd, Option.map_some']
    rw [if_pos (by omega : bmax ≤ bmax + s.spanMs)]
    simp [renderPlotWindow, clampWindow_tail hspan0 hwide]

/-- Concrete instance of `slideForward_snap_idempotent`: a window one span
short of the tail snaps onto `[max - span, max]` and stays there. -/
theorem slideForward_snap_idempotent_witness :
    (⟨100, some 500, some 600, some 650, false⟩ : AdminState).end_ = some 600 ∧
    ∃ s', slideForward 0 650 ⟨100, some 500, some 600, some 650, false⟩ = some s' ∧
      s'.end_ = some 650 ∧ s'.start = some (650 - 100) ∧
      s'.followTail = true ∧
      slideForward 0 650 s' = some s' :=
  ⟨rfl,
   slideForward_snap_idempotent 0 650 ⟨100, some 500, some 600, some 650, false⟩ 500 600
     rfl rfl rfl (by decide) (by decide) (by decide)⟩

/-- The state touched by `handleLiveMessage` in plot_single.js: the cached
bounds for the current topic and the current window. -/
structure LiveWindow where
  bounds : Option Bounds
  currentStart : Option ℤ
  currentEnd : Option ℤ
  deriving DecidableEq, Repr

/-- `handleLiveMessage(msg)` from plot_single.js (lines 144 to 177), for a
sample on the current topic with a valid timestamp `ts`: remember the
previous tail, bump the cached max bound if the sample is newer, and, when
the window end was within 5000 ms of the previous tail and the tail did
not move backwards, pin the window end to the new tail keeping the span
(floored at 1000 ms), clamping the start to the min bound. -/
def handleLiveMessage (s : LiveWindow) (ts : ℤ) : LiveWindow :=
  let prevTail := s.bounds.map (fun b => b.max)
  let bounds := s.bounds.map (fun b => if b.max < ts then { b with max := ts } else b)
  let tail := bounds.map (fun b => b.max)
  match s.currentEnd, tail, prevTail with
  | some ce, some tl, some pt =>
    if |pt - ce| ≤ 5000 ∧ pt ≤ tl then
      let windowMs :=
        match s.currentStart with
        | some cs => max 1000 (ce - cs)
        | none => WINDOW_OPTIONS_MS.getD 1 0
      let ce1 := tl
      let cs1 := ce1 - windowMs
      let cs2 :=
        match bounds with
        | some b => if cs1 < b.min then b.min else cs1
        | none => cs1
      { bounds := bounds, currentStart := some cs2, currentEnd := some ce1 }
    else { s with bounds := bounds }
  | _, _, _ => { s with bounds := bounds }

/-- C5: with the window end within 5000 ms of the previously known tail
(the code realisation of `followTail`), a new sample with `ts > end`
advances the end to the new tail `max(oldTail, ts)` and recomputes the
start so the span is preserved exactly (the start stays inside the
bounds, so the min clamp does not fire); the new end sits exactly on the
new tail, so the window keeps following it.  If the end was not within
5000 ms of the previous tail, the window is left untouched. -/
theorem handleLiveMessage_tail_follow (b : Bounds) (cs ce ts : ℤ) (s : LiveWindow)
    (hb : s.bounds = some b) (hcs : s.currentStart = some cs)
    (hce : s.currentEnd = some ce)
    (hmin : b.min ≤ cs) (hspan : 1000 ≤ ce - cs) (hts : ce < ts) :
    (|b.max - ce| ≤ 5000 →
      (handleLiveMessage s ts).currentEnd = some (max b.max ts) ∧
      (handleLiveMessage s ts).currentStart = some (max b.max ts - (ce - cs)) ∧
      (handleLiveMessage s ts).bounds = some { b with max := max b.max ts }) ∧
    (¬ |b.max - ce| ≤ 5000 →
      (handleLiveMessage s ts).currentStart = some cs ∧
      (handleLiveMessage s ts).currentEnd = some ce) := by
  by_cases hc : b.max < ts
  · have hm1 : b.max ⊔ ts = ts := max_eq_right hc.le
    have hm2 : (1000 : ℤ) ⊔ (ce - cs) = ce - cs := max_eq_right hspan
    constructor
    · intro hnear
      simp only [handleLiveMessage, hb, hcs, hce, Option.map_some', if_pos hc]
      rw [if_pos (⟨hnear, hc.le⟩ : |b.max - ce| ≤ 5000 ∧ b.max ≤ ts)]
      rw [hm1, hm2, if_neg (by omega : ¬ ts - (ce - cs) < b.min)]
      exact ⟨rfl, rfl, rfl⟩
    · intro hnear
      simp only [handleLiveMessage, hb, hcs, hce, Option.map_some', if_pos hc]
      rw [if_neg (fun h => hnear h.1)]
      exact ⟨rfl, rfl⟩
  · have hm1 : b.max ⊔ ts = b.max := max_eq_left (not_lt.mp hc)
    have hm2 : (1000 : ℤ) ⊔ (ce - cs) = ce - cs := max_eq_right hspan
    constructor
    · intro hnear
      simp only [handleLiveMessage, hb, hcs, hce, Option.map_some', if_neg hc]
      rw [if_pos (⟨hnear, le_refl _⟩ : |b.max - ce| ≤ 5000 ∧ b.max ≤ b.max)]
      rw [hm1, hm2, if_neg (by omega : ¬ b.max - (ce - cs) < b.min)]
      exact ⟨rfl, rfl, rfl⟩
    · intro hnear
      simp only [handleLiveMessage, hb, hcs, hce, Option.map_some', if_neg hc]
      rw [if_neg (fun h => hnear h.1)]
      exact ⟨rfl, rfl⟩

/-- Concrete instance of `handleLiveMessage_tail_follow`: a window
`[2000, 8000]` whose end is 2000 ms from the tail 10000 follows a new
sample at 12000, moving to `[6000, 12000]` with the span 6000 intact. -/
theorem handleLiveMessage_tail_follow_witness :
    |(10000 : ℤ) - 8000| ≤ 5000 ∧
    ((handleLiveMessage ⟨some ⟨0, 10000⟩, some 2000, some 8000⟩ 12000).currentEnd =
        some (max 10000 12000) ∧
      (handleLiveMessage ⟨some ⟨0, 10000⟩, some 2000, some 8000⟩ 12000).currentStart =
        some (max 10000 12000 - (8000 - 2000)) ∧
      (handleLiveMessage ⟨some ⟨0, 10000⟩, some 2000, some 8000⟩ 12000).bounds =
        some ⟨0, max 10000 12000⟩) :=
  ⟨by decide,
   (handleLiveMessage_tail_follow ⟨0, 10000⟩ 2000 8000 12000
      ⟨some ⟨0, 10000⟩, some 2000, some 8000⟩ rfl rfl rfl
      (by decide) (by decide) (by decide)).1 (by decide)⟩

/-- The liveness computation inside `updateLiveIndicator` in
admin_topic_plot.js (lines 105 to 110): live iff `followTail` is set,
both the tail and the window end are known, and they are within 5000 ms
of each other. -/
def isLive (end_ tail : Option ℤ) (followTail : Bool) : Bool :=
  match followTail, tail, end_ with
  | true, some t, some e => decide (|t - e| ≤ 5000)
  | _, _, _ => false

/-- C9: the liveness predicate is true iff `followTail` is set and the
tail (`dataBounds.max`) and window end are both known and at most 5000 ms
apart; in particular it is false whenever `followTail` is false or the
tail is absent. -/
theorem isLive_iff (end_ tail : Option ℤ) (followTail : Bool) :
    (isLive end_ tail followTail = true ↔
      followTail = true ∧ ∃ t e, tail = some t ∧ end_ = some e ∧ |t - e| ≤ 5000) ∧
    isLive end_ none followTail = false ∧
    isLive end_ tail false = false := by
  refine ⟨?_, ?_, ?_⟩
  · cases followTail <;> cases tail <;> cases end_ <;> simp [isLive]
  · cases followTail <;> cases end_ <;> simp [isLive]
  · cases tail <;> cases end_ <;> simp [isLive]

/-- The shift loop of the y-range computation in `plotFromInputs`
(plot_single.js lines 268 to 274): translate the window `[lo, hi]` by one
`dtick` at a time toward the data until it contains `[minY, maxY]`,
giving up after `maxShift = 1000` iterations.  Inside the loop one of the
two branches always applies, so the else branch is the shift up. -/
def shiftAlign (dtick minY maxY : ℚ) (lo hi : ℚ) : ℕ → ℚ × ℚ
  | 0 => (lo, hi)
  | fuel + 1 =>
    if minY < lo ∨ maxY > hi then
      if minY < lo then shiftAlign dtick minY maxY (lo - dtick) (hi - dtick) fuel
      else shiftAlign dtick minY maxY (lo + dtick) (hi + dtick) fuel
    else (lo, hi)

/-- The y-range computation of `plotFromInputs` (plot_single.js lines 260
to 281): anchor the midline to the nearest `dtick` multiple, take the
window one `dtick` either side of it, then run the shift loop. -/
def singleAxisRange (dtick minY maxY : ℚ) : ℚ × ℚ :=
  let midTick : ℚ := (jsRound ((minY + maxY) / 2 / dtick) : ℚ) * dtick
  shiftAlign dtick minY maxY (midTick - dtick) (midTick + dtick) 1000

lemma shiftAlign_stay (d a b lo hi : ℚ) (h1 : ¬ a < lo) (h2 : ¬ b > hi) :
    ∀ fuel : ℕ, shiftAlign d a b lo hi fuel = (lo, hi) := by
  intro fuel
  cases fuel with
  | zero => rfl
  | succ n =>
    simp only [shiftAlign]
    rw [if_neg (fun h => h.elim h1 h2)]

lemma shiftAlign_width (d a b : ℚ) (fuel : ℕ) : ∀ lo hi : ℚ,
    (shiftAlign d a b lo hi fuel).2 - (shiftAlign d a b lo hi fuel).1 = hi - lo := by
  induction fuel with
  | zero => intro lo hi; rfl
  | succ n ih =>
    intro lo hi
    simp only [shiftAlign]
    split_ifs with h1 h2
    · rw [ih]; ring
    · rw [ih]; ring
    · rfl

lemma shiftAlign_translate (d a b : ℚ) (fuel : ℕ) : ∀ lo hi : ℚ,
    ∃ j : ℤ, (shiftAlign d a b lo hi fuel).1 = lo + (j : ℚ) * d := by
  induction fuel with
  | zero => intro lo hi; exact ⟨0, by simp [shiftAlign]⟩
  | succ n ih =>
    intro lo hi
    simp only [shiftAlign]
    split_ifs with h1 h2
    · obtain ⟨j, hj⟩ := ih (lo - d) (hi - d)
      exact ⟨j - 1, by rw [hj]; push_cast; ring⟩
    · obtain ⟨j, hj⟩ := ih (lo + d) (hi + d)
      exact ⟨j + 1, by rw [hj]; push_cast; ring⟩
    · exact ⟨0, by simp⟩

/-- When some tick-aligned window `[k*d, k*d + 2*d]` covers the data, the
shift loop reaches a covering position before the fuel runs out, since
each step moves one lattice position closer to `k`. -/
lemma shiftAlign_contains (d a b : ℚ) (hd : 0 < d) (k : ℤ)
    (hk1 : (k : ℚ) * d ≤ a) (hk2 : b ≤ (k : ℚ) * d + 2 * d) (fuel : ℕ) :
    ∀ j : ℤ, (j - k).natAbs ≤ fuel →
      (shiftAlign d a b ((j : ℚ) * d) ((j : ℚ) * d + 2 * d) fuel).1 ≤ a ∧
      b ≤ (shiftAlign d a b ((j : ℚ) * d) ((j : ℚ) * d + 2 * d) fuel).2 := by
  induction fuel with
  | zero =>
    intro j hj
    have hjk : j = k := by omega
    subst hjk
    rw [shiftAlign]
    exact ⟨hk1, hk2⟩
  | succ n ih =>
    intro j hj
    by_cases h1 : a < (j : ℚ) * d
    · have hkj : k < j := by
        have hq : (k : ℚ) * d < (j : ℚ) * d := lt_of_le_of_lt hk1 h1
        exact_mod_cast (mul_lt_mul_right hd).mp hq
      have hstep : shiftAlign d a b ((j : ℚ) * d) ((j : ℚ) * d + 2 * d) (n + 1)
          = shiftAlign d a b (((j - 1 : ℤ) : ℚ) * d) (((j - 1 : ℤ) : ℚ) * d + 2 * d) n := by
        have e1 : (j : ℚ) * d - d = ((j - 1 : ℤ) : ℚ) * d := by push_cast; ring
        have e2 : (j : ℚ) * d + 2 * d - d = ((j - 1 : ℤ) : ℚ) * d + 2 * d := by
          push_cast; ring
        simp only [shiftAlign]
        rw [if_pos (Or.inl h1), if_pos h1, e1, e2]
      rw [hstep]
      exact ih (j - 1) (by omega)
    · by_cases h2 : b > (j : ℚ) * d + 2 * d
      · have hkj : j < k := by
          have hq : (j : ℚ) * d + 2 * d < (k : ℚ) * d + 2 * d := lt_of_lt_of_le h2 hk2
          have hq2 : (j : ℚ) * d < (k : ℚ) * d := by linarith
          exact_mod_cast (mul_lt_mul_right hd).mp hq2
        have hstep : shiftAlign d a b ((j : ℚ) * d) ((j : ℚ) * d + 2 * d) (n + 1)
            = shiftAlign d a b (((j + 1 : ℤ) : ℚ) * d) (((j + 1 : ℤ) : ℚ) * d + 2 * d) n := by
          have e1 : (j : ℚ) * d + d = ((j + 1 : ℤ) : ℚ) * d := by push_cast; ring
          have e2 : (j : ℚ) * d + 2 * d + d = ((j + 1 : ℤ) : ℚ) * d + 2 * d := by
            push_cast; ring
          simp only [shiftAlign]
          rw [if_pos (Or.inr h2), if_neg h1, e1, e2]
        rw [hstep]
        exact ih (j + 1) (by omega)
      · rw [shiftAlign_stay d a b _ _ h1 h2]
        exact ⟨not_lt.mp h1, not_lt.mp h2⟩

/-- C2: for a flat observed range `observedMin = observedMax = v` and any
`minTick > 0`, the y-range is exactly two tick intervals wide and
contains `v`: the midline anchor lands within half a tick of `v`, so the
shift loop exits immediately. -/
theorem axis_flat_two_intervals (d v : ℚ) (hd : 0 < d) :
    (singleAxisRange d v v).2 - (singleAxisRange d v v).1 = 2 * d ∧
    (singleAxisRange d v v).1 ≤ v ∧ v ≤ (singleAxisRange d v v).2 := by
  have hvv : (v + v) / 2 / d = v / d := by ring
  simp only [singleAxisRange, hvv]
  set r := jsRound (v / d) with hr
  have hx : v / d * d = v := div_mul_cancel₀ v hd.ne'
  have h1 : (r : ℚ) ≤ v / d + 1 / 2 := Int.floor_le _
  have h2 : v / d + 1 / 2 < (r : ℚ) + 1 := Int.lt_floor_add_one _
  have h1m : (r : ℚ) * d ≤ (v / d + 1 / 2) * d := mul_le_mul_of_nonneg_right h1 hd.le
  have h2m : (v / d + 1 / 2) * d < ((r : ℚ) + 1) * d := by
    exact (mul_lt_mul_right hd).mpr h2
  rw [add_mul, hx] at h1m h2m
  have hlo : (r : ℚ) * d - d ≤ v := by linarith
  have hhi : v ≤ (r : ℚ) * d + d := by linarith
  rw [shiftAlign_stay d v v _ _ (not_lt.mpr hlo) (not_lt.mpr hhi)]
  exact ⟨by ring, hlo, hhi⟩

/-- Concrete instance of `axis_flat_two_intervals`: flat data at 69.4 with
minTick 1 still gets a two-interval range containing 69.4. -/
theorem axis_flat_two_intervals_witness :
    (0 : ℚ) < 1 ∧
    ((singleAxisRange 1 (694/10) (694/10)).2 - (singleAxisRange 1 (694/10) (694/10)).1 = 2 * 1 ∧
     (singleAxisRange 1 (694/10) (694/10)).1 ≤ 694/10 ∧
     (694/10 : ℚ) ≤ (singleAxisRange 1 (694/10) (694/10)).2) :=
  ⟨by norm_num, axis_flat_two_intervals 1 (694/10) (by norm_num)⟩

/-- C3 (amended): the shift-alignment window is only ever translated by
whole multiples of `minTick` and never resized; it contains the full
observed range provided some tick-aligned two-interval window can contain
it, that is, some integer `k` has `k*minTick ≤ observedMin` and
`observedMax ≤ k*minTick + 2*minTick`.  (A range that fits in no such
window, for example one wider than `2*minTick`, can never be covered,
because the window is never resized.) -/
theorem axis_shift_coverage (d minY maxY : ℚ) (hd : 0 < d) (hle : minY ≤ maxY)
    (hfit : ∃ k : ℤ, (k : ℚ) * d ≤ minY ∧ maxY ≤ (k : ℚ) * d + 2 * d) :
    ((singleAxisRange d minY maxY).1 ≤ minY ∧ maxY ≤ (singleAxisRange d minY maxY).2) ∧
    (∃ j : ℤ, (singleAxisRange d minY maxY).1 =
      ((jsRound ((minY + maxY) / 2 / d) : ℚ) * d - d) + (j : ℚ) * d) ∧
    (singleAxisRange d minY maxY).2 - (singleAxisRange d minY maxY).1 = 2 * d := by
  obtain ⟨k, hk1, hk2⟩ := hfit
  simp only [singleAxisRange]
  set r := jsRound ((minY + maxY) / 2 / d) with hr
  refine ⟨?_, ?_, ?_⟩
  · have hmidlo : (k : ℚ) ≤ (minY + maxY) / 2 / d := by
      rw [le_div_iff₀ hd]
      linarith
    have hmidhi : (minY + maxY) / 2 / d ≤ (k : ℚ) + 2 := by
      rw [div_le_iff₀ hd]
      linarith
    have hrk1 : k ≤ r := by
      rw [hr]
      exact Int.le_floor.mpr (by linarith)
    have hrk2 : r ≤ k + 2 := by
      have : r < k + 3 := by
        rw [hr]
        refine Int.floor_lt.mpr ?_
        push_cast
        linarith
      omega
    have e1 : (r : ℚ) * d - d = ((r - 1 : ℤ) : ℚ) * d := by push_cast; ring
    have e2 : (r : ℚ) * d + d = ((r - 1 : ℤ) : ℚ) * d + 2 * d := by push_cast; ring
    rw [e1, e2]
    exact shiftAlign_contains d minY maxY hd k hk1 hk2 1000 (r - 1) (by omega)
  · exact shiftAlign_translate d minY maxY 1000 ((r : ℚ) * d - d) ((r : ℚ) * d + d)
  · rw [shiftAlign_width]
    ring

/-- Concrete instance of `axis_shift_coverage`: minTick 1 over the range
`[0, 1.5]`, which fits in the aligned window `[0, 2]`. -/
theorem axis_shift_coverage_witness :
    (0 : ℚ) < 1 ∧ (0 : ℚ) ≤ 3/2 ∧
    (((singleAxisRange 1 0 (3/2)).1 ≤ 0 ∧ (3/2 : ℚ) ≤ (singleAxisRange 1 0 (3/2)).2) ∧
     (∃ j : ℤ, (singleAxisRange 1 0 (3/2)).1 =
       ((jsRound ((0 + 3/2) / 2 / 1) : ℚ) * 1 - 1) + (j : ℚ) * 1) ∧
     (singleAxisRange 1 0 (3/2)).2 - (singleAxisRange 1 0 (3/2)).1 = 2 * 1) :=
  ⟨by norm_num, by norm_num,
   axis_shift_coverage 1 0 (3/2) (by norm_num) (by norm_num)
     ⟨0, by norm_num, by norm_num⟩⟩

/-- Counterexample to C3 as stated: with minTick 1 and observed range
`[0, 10]`, the shift loop never resizes its two-unit window, so the
result cannot contain the full observed range. -/
theorem axis_shift_coverage_cex :
    ¬ ((singleAxisRange 1 0 10).1 ≤ 0 ∧ (10 : ℚ) ≤ (singleAxisRange 1 0 10).2) := by
  intro h
  have hw : (singleAxisRange 1 0 10).2 - (singleAxisRange 1 0 10).1 = 2 * 1 := by
    simp only [singleAxisRange]
    rw [shiftAlign_width]
    ring
  have h1 := h.1
  have h2 := h.2
  linarith

/-- The number of digits after the decimal point that `lcmFloat` reads off
`Number.toString`, capped at 6 as in `Math.min(6, Math.max(dx, dy))`:
modelled for rationals as the least `d ≤ 6` making `x * 10^d` integral,
or 6 when none does. -/
def decDigits (x : ℚ) : ℕ :=
  if (x * 10 ^ (0 : ℕ)).den = 1 then 0
  else if (x * 10 ^ (1 : ℕ)).den = 1 then 1
  else if (x * 10 ^ (2 : ℕ)).den = 1 then 2
  else if (x * 10 ^ (3 : ℕ)).den = 1 then 3
  else if (x * 10 ^ (4 : ℕ)).den = 1 then 4
  else if (x * 10 ^ (5 : ℕ)).den = 1 then 5
  else 6

/-- `gcdInt(a, b)` from plot_core.js (lines 55 to 59): the Euclidean loop
on `Math.abs(a)` and `Math.abs(b)`, which computes their gcd. -/
def gcdInt (a b : ℤ) : ℤ := (Int.gcd a b : ℤ)

/-- `lcmInt(a, b)` from plot_core.js (lines 60 to 63): 0 when either input
is falsy, else `Math.abs((a / gcdInt(a,b)) * b)` (the division is exact). -/
def lcmInt (a b : ℤ) : ℤ :=
  if a = 0 ∨ b = 0 then 0 else ((a / gcdInt a b) * b).natAbs

/-- `lcmFloat(a, b)` from plot_core.js (lines 64 to 76): `null` for
non-positive (or non-finite) inputs, else scale both by `10^d` for the
shared decimal-digit count `d`, round to integers, and return
`lcmInt / scale`; `null` again when a rounded integer is not positive. -/
def lcmFloat (a b : ℚ) : Option ℚ :=
  if a ≤ 0 ∨ b ≤ 0 then none
  else
    let d := max (decDigits a) (decDigits b)
    let scale : ℚ := 10 ^ d
    let ix := jsRound (a * scale)
    let iy := jsRound (b * scale)
    if ix ≤ 0 ∨ iy ≤ 0 then none
    else some ((lcmInt ix iy : ℚ) / scale)

/-- The accumulation loop of `lcmFromSet` (plot_core.js lines 80 to 85):
`if (!nxt) return out` keeps the accumulated lcm when a step yields
`null` or 0 (JS falsy). -/
def lcmAccum (out : ℚ) : List ℚ → ℚ
  | [] => out
  | v :: vs =>
    match lcmFloat out v with
    | none => out
    | some nxt => if nxt = 0 then out else lcmAccum nxt vs

/-- `lcmFromSet(values)` from plot_core.js (lines 77 to 87): keep the
finite strictly positive values (rationals are always finite here),
`null` when none remain, else fold `lcmFloat` over them. -/
def lcmFromSet (values : List ℚ) : Option ℚ :=
  match values.filter (fun v => decide (0 < v)) with
  | [] => none
  | a :: rest => some (lcmAccum a rest)

/-- C6: the rational-LCM combined tick computation yields 3 for the tick
sizes `{1, 1.5}` and 4 for `{2, 4}`. -/
theorem lcmFromSet_examples :
    lcmFromSet [1, 3/2] = some 3 ∧ lcmFromSet [2, 4] = some 4 := by
  constructor <;>
    norm_num [lcmFromSet, lcmAccum, lcmFloat, decDigits, lcmInt, gcdInt, jsRound,
      List.filter_cons, decide_eq_true_eq, Int.gcd]

lemma gcdInt_pos {a b : ℤ} (ha : 0 < a) : 0 < gcdInt a b := by
  have h0 : a.gcd b ≠ 0 := by
    intro h
    obtain ⟨h1, h2⟩ := Int.gcd_eq_zero_iff.mp h
    omega
  have hpos : 0 < a.gcd b := Nat.pos_of_ne_zero h0
  simp only [gcdInt]
  exact_mod_cast hpos

lemma lcmInt_pos {a b : ℤ} (ha : 0 < a) (hb : 0 < b) : 0 < lcmInt a b := by
  rw [lcmInt, if_neg (by omega : ¬ (a = 0 ∨ b = 0))]
  have hg : 0 < gcdInt a b := gcdInt_pos ha
  obtain ⟨c, hc⟩ : gcdInt a b ∣ a := by
    simp only [gcdInt]
    exact Int.gcd_dvd_left
  have hc0 : 0 < c := by
    rcases lt_trichotomy c 0 with h | h | h
    · exfalso; nlinarith
    · exfalso; rw [h, mul_zero] at hc; omega
    · exact h
  have hdiv : a / gcdInt a b = c := by
    nth_rewrite 1 [hc]
    exact Int.mul_ediv_cancel_left _ hg.ne'
  rw [hdiv]
  have hpos : 0 < c * b := mul_pos hc0 hb
  omega

lemma lcmFloat_pos {a b n : ℚ} (h : lcmFloat a b = some n) : 0 < n := by
  simp only [lcmFloat] at h
  split_ifs at h with h1 h2
  push_neg at h2
  have hx : (0 : ℤ) < jsRound (a * 10 ^ max (decDigits a) (decDigits b)) := by omega
  have hy : (0 : ℤ) < jsRound (b * 10 ^ max (decDigits a) (decDigits b)) := by omega
  have hl := lcmInt_pos hx hy
  have hs : (0 : ℚ) < 10 ^ max (decDigits a) (decDigits b) := by positivity
  have hn := Option.some.inj h
  subst hn
  exact div_pos (by exact_mod_cast hl) hs

lemma lcmAccum_pos : ∀ (vs : List ℚ) (out : ℚ), 0 < out → 0 < lcmAccum out vs := by
  intro vs
  induction vs with
  | nil => intro out h; simpa [lcmAccum] using h
  | cons v vs ih =>
    intro out h
    cases hl : lcmFloat out v with
    | none => simp only [lcmAccum, hl]; exact h
    | some nxt =>
      simp only [lcmAccum, hl]
      rw [if_neg (lcmFloat_pos hl).ne']
      exact ih nxt (lcmFloat_pos hl)

/-- C10 (implicit): `lcmFromSet` returns the no-enforcement sentinel
`none` iff the input holds no strictly positive value (rationals model
only the finite inputs); whenever it returns a value, that value is
strictly positive, including when a degenerate `lcmFloat` step makes the
loop return the lcm accumulated so far. -/
theorem lcmFromSet_none_iff_and_pos (values : List ℚ) :
    (lcmFromSet values = none ↔ ∀ v ∈ values, ¬ 0 < v) ∧
    (∀ r : ℚ, lcmFromSet values = some r → 0 < r) := by
  constructor
  · constructor
    · intro hnone v hv hvpos
      cases hf : values.filter (fun v => decide (0 < v)) with
      | nil =>
        have := List.filter_eq_nil_iff.mp hf v hv
        simp only [decide_eq_true_eq] at this
        exact this hvpos
      | cons a rest =>
        rw [lcmFromSet, hf] at hnone
        exact absurd hnone (by simp)
    · intro hall
      have hf : values.filter (fun v => decide (0 < v)) = [] :=
        List.filter_eq_nil_iff.mpr (fun v hv => by simpa using hall v hv)
      rw [lcmFromSet, hf]
  · intro r hr
    cases hf : values.filter (fun v => decide (0 < v)) with
    | nil =>
      rw [lcmFromSet, hf] at hr
      exact absurd hr (by simp)
    | cons a rest =>
      rw [lcmFromSet, hf] at hr
      have ha : 0 < a := by
        have hmem : a ∈ values.filter (fun v => decide (0 < v)) := by
          rw [hf]; exact List.mem_cons_self a rest
        simpa using (List.mem_filter.mp hmem).2
      obtain rfl := Option.some.inj hr
      exact lcmAccum_pos rest a ha

/-- Concrete instance of `lcmFromSet_none_iff_and_pos`: the set `{2}` has
a positive member, and the returned combined tick 2 is positive. -/
theorem lcmFromSet_pos_witness :
    lcmFromSet [(2 : ℚ)] = some 2 ∧ (0 : ℚ) < 2 :=
  ⟨by decide, (lcmFromSet_none_iff_and_pos [(2 : ℚ)]).2 2 (by decide)⟩

end MQTTPlot
